import Mathlib

set_option autoImplicit false

/-!
Verification development for the daydreams agent-orchestration framework.

The definitions below are a shallow embedding of the TypeScript source:
  - packages/core/src/core/db/mongo-db.ts          (scheduled-task store)
  - packages/core/src/core/storages/memory-repository.ts (in-memory Repository)
  - packages/core/src/core/v1/planning/strategies/htn.ts (HTN planner)
  - the BasePlanningSystem (goal manager)
  - packages/core/src/core/orchestrator.ts         (autonomous flow engine)

JavaScript `Date` values and `Date.now()` are modelled as integer epoch
milliseconds, passed explicitly as a `now` parameter.  JavaScript numbers
appearing as failure rates are modelled as rationals.
-/

namespace Daydreams

/-! ## Scheduled tasks (mongo-db.ts) -/

/-- Task lifecycle status, the string union "pending" | "running" | "completed" | "failed". -/
inductive TaskStatus where
  | pending
  | running
  | completed
  | failed
deriving DecidableEq, Repr, BEq

/-- A ScheduledTask document (core/types.ts shape, as used by mongo-db.ts).
`taskData` is Record<string, any>; the claims never inspect it, it is modelled
as a string association list. -/
structure ScheduledTask where
  taskId : String
  userId : String
  handlerName : String
  taskData : List (String × String)
  nextRunAt : Int
  intervalMs : Option Int
  status : TaskStatus
  createdAt : Int
  updatedAt : Int
deriving DecidableEq, Repr

/-- The filter built by MongoDb.findDueTasks (mongo-db.ts lines 70-79):
status == "pending" AND nextRunAt <= now. -/
def dueFilter (now : Int) (t : ScheduledTask) : Bool :=
  t.status == TaskStatus.pending && decide (t.nextRunAt ≤ now)

/-- The Limits argument of Repository.find (storage/src/find-types.ts), shared
by both Repository backends: an optional limit and an optional skip. -/
structure FindLimits where
  limit : Option Nat
  skip : Option Nat

namespace MongoRepository

/-- MongoRepository.find (mongo-repository.ts lines 112-164) specialised to the
due-task query issued by MongoDb.findDueTasks.  The query translation (lines
115-145) passes the string "pending" through verbatim and maps the operator
field lte to $lte (its bound, a Date object, is truthy, so the guard `if
(query[key].lte)` takes it).  The cursor modifiers (lines 149-157) are guarded
by JavaScript truthiness: find.limit is applied only when limits.limit is
nonzero — a limit of 0 applies no cap — and find.skip only when limits.skip is
nonzero; the MongoDB server applies sort, then skip, then limit, independent
of the modifier call order.  The server-side evaluation of the translated
query is the external MongoDB collaborator, modelled from the spec section 6:
the filter operator lte selects documents whose field is <= the bound and the
sort asc orders ascending; the sort is modelled as a stable merge sort on
nextRunAt. -/
def findDue (store : List ScheduledTask) (now : Int)
    (limits : Option FindLimits) : List ScheduledTask :=
  let sorted := (store.filter (dueFilter now)).mergeSort
    (fun a b => decide (a.nextRunAt ≤ b.nextRunAt))
  match limits with
  | none => sorted
  | some lim =>
      let skipped :=
        match lim.skip with
        | none => sorted
        | some 0 => sorted
        | some s => sorted.drop s
      match lim.limit with
      | none => skipped
      | some 0 => skipped
      | some l => skipped.take l

end MongoRepository

namespace MongoDb

/-- MongoDb.findDueTasks (mongo-db.ts lines 70-79): issues the query
(status = "pending", nextRunAt lte now) with Limits (the given limit, no skip)
and sort (nextRunAt asc) against the persistent Repository backend. -/
def findDueTasks (store : List ScheduledTask) (now : Int) (limit : Nat) :
    List ScheduledTask :=
  MongoRepository.findDue store now (some ⟨some limit, none⟩)

/-- MongoDb.markCompleted (mongo-db.ts lines 94-99), document-level effect of
the update (status := failed ? "failed" : "completed", updatedAt := now). -/
def markCompleted (now : Int) (failed : Bool) (t : ScheduledTask) : ScheduledTask :=
  { t with status := if failed then TaskStatus.failed else TaskStatus.completed,
           updatedAt := now }

/-- MongoDb.updateNextRun (mongo-db.ts lines 104-113), document-level effect of
the update (status := "pending", nextRunAt := newRunTime, updatedAt := now). -/
def updateNextRun (now : Int) (newRunTime : Int) (t : ScheduledTask) : ScheduledTask :=
  { t with status := TaskStatus.pending, nextRunAt := newRunTime, updatedAt := now }

/-- MongoDb.rescheduleIfRecurring (mongo-db.ts lines 119-128).  The source
guard is the JavaScript truthiness test `if (!task.intervalMs)`, which is taken
when intervalMs is undefined AND when it is 0. -/
def rescheduleIfRecurring (now : Int) (t : ScheduledTask) : ScheduledTask :=
  match t.intervalMs with
  | none => markCompleted now false t
  | some i =>
      if i = 0 then markCompleted now false t
      else updateNextRun now (now + i) t

end MongoDb

/-! ## The in-memory Repository backend (memory-repository.ts)

MemoryRepository.find filters with the JavaScript strict-equality test
`query[key] !== item[key]`.  A JS runtime value is either a primitive
(compared by value) or an object (compared by reference).  The model below
tags objects with a reference number; strict equality across different value
kinds (string vs Date vs plain object) is false, and between two objects it
is reference equality. -/

/-- A JavaScript runtime value as stored in MemoryRepository documents and
query objects: a string primitive, a Date object, or a plain object literal
(holding its own fields, e.g. the operator object built by findDueTasks). -/
inductive JsValue where
  | str (s : String)
  | dateObj (ref : Nat) (ms : Int)
  | plainObj (ref : Nat) (fields : List (String × JsValue))

/-- JavaScript strict equality (===) on the modelled values: strings compare by
value, objects (Dates and plain objects) by reference; values of different
runtime kinds are never strictly equal. -/
def jsStrictEq : JsValue → JsValue → Bool
  | JsValue.str a, JsValue.str b => a == b
  | JsValue.dateObj r _, JsValue.dateObj r2 _ => r == r2
  | JsValue.plainObj r _, JsValue.plainObj r2 _ => r == r2
  | _, _ => false

/-- A document held by MemoryRepository: field name to value. -/
def MemDoc : Type := List (String × JsValue)

/-- The filter predicate of MemoryRepository.find (memory-repository.ts lines
84-91): an item matches when for every query key, `query[key] !== item[key]` is
false, i.e. the query value is strictly equal to the item value.  A key absent
from the item reads as undefined, which is never strictly equal to a query
value of the modelled kinds. -/
def memMatches (query : List (String × JsValue)) (doc : MemDoc) : Bool :=
  query.all (fun kv =>
    match List.lookup kv.fst doc with
    | some v => jsStrictEq kv.snd v
    | none => false)

/-- String comparison as an integer sign, modelling String.localeCompare by
code-point order. -/
def strCompare (a b : String) : Int :=
  match compare a b with
  | Ordering.lt => -1
  | Ordering.eq => 0
  | Ordering.gt => 1

/-- The sort comparator of MemoryRepository.find (memory-repository.ts lines
94-123): per sort key, compare only when both values are of typeof "string"
(via localeCompare) or both of typeof "number"; Date objects and plain objects
are neither, so such keys contribute nothing and the comparator falls through
to the next key (returning 0 after the last).  The modelled documents carry no
raw-number fields, so only the string branch is reachable. -/
def memCompare : List (String × Bool) → MemDoc → MemDoc → Int
  | [], _, _ => 0
  | (key, asc) :: rest, a, b =>
      let sortValue : Int := if asc then 1 else -1
      match List.lookup key a, List.lookup key b with
      | some (JsValue.str x), some (JsValue.str y) =>
          let c := strCompare x y
          if c ≠ 0 then c * sortValue else memCompare rest a b
      | _, _ => memCompare rest a b

/-- The result-window step of MemoryRepository.find (memory-repository.ts lines
126-130): `limits?.limit ? items.slice(limits.skip || 0, limits.skip +
limits.limit) : items`.  When limit is undefined or 0 (falsy) the whole list is
returned; otherwise, when skip is undefined, the slice end `undefined + limit`
is NaN, which Array.prototype.slice converts to 0, yielding the empty list;
with a numeric skip the window is slice(skip, skip + limit). -/
def memApplyLimits (limits : Option FindLimits) (items : List MemDoc) : List MemDoc :=
  match limits with
  | none => items
  | some lim =>
      match lim.limit with
      | none => items
      | some 0 => items
      | some l =>
          match lim.skip with
          | none => []
          | some s => (items.drop s).take l

namespace MemoryRepository

/-- MemoryRepository.find (memory-repository.ts lines 83-131): filter the
collection values by strict-equality match against the query, stable-sort with
the comparator when a sort spec is given (true = "asc"), then apply the limits
window. -/
def find (docs : List MemDoc) (query : List (String × JsValue))
    (limits : Option FindLimits) (sortSpec : Option (List (String × Bool))) :
    List MemDoc :=
  let items := docs.filter (memMatches query)
  let sorted :=
    match sortSpec with
    | some spec => items.mergeSort (fun a b => decide (memCompare spec a b ≤ 0))
    | none => items
  memApplyLimits limits sorted

end MemoryRepository

/-- The query document built by MongoDb.findDueTasks: status: "pending" plus a
freshly allocated operator object with field lte holding a freshly allocated
Date for now.  qref and nowRef are the references of those two fresh objects. -/
def dueQuery (qref nowRef : Nat) (now : Int) : List (String × JsValue) :=
  [("status", JsValue.str "pending"),
   ("nextRunAt", JsValue.plainObj qref [("lte", JsValue.dateObj nowRef now)])]

/-- MongoDb.findDueTasks running against the in-memory backend: the query of
mongo-db.ts lines 73-76 with limits (limit, no skip) and sort nextRunAt asc,
evaluated by MemoryRepository.find. -/
def memoryFindDueTasks (docs : List MemDoc) (qref nowRef : Nat) (now : Int)
    (limit : Nat) : List MemDoc :=
  MemoryRepository.find docs (dueQuery qref nowRef now)
    (some ⟨some limit, none⟩) (some [("nextRunAt", true)])

/-- A concrete pending task document in the in-memory store, due at time 1000
(its nextRunAt Date object has reference 0). -/
def memTaskDoc0 : MemDoc :=
  [("status", JsValue.str "pending"),
   ("nextRunAt", JsValue.dateObj 0 1000),
   ("userId", JsValue.str "u1"),
   ("handlerName", JsValue.str "h")]

/-- The same concrete task as a ScheduledTask record, for the persistent-model
comparison. -/
def task0 : ScheduledTask :=
  { taskId := "t0", userId := "u1", handlerName := "h", taskData := [],
    nextRunAt := 1000, intervalMs := none, status := TaskStatus.pending,
    createdAt := 900, updatedAt := 900 }

/-- A concrete recurring task whose intervalMs is 0 (defined, but falsy in the
JavaScript guard of rescheduleIfRecurring). -/
def taskInterval0 : ScheduledTask :=
  { taskId := "t1", userId := "u1", handlerName := "h", taskData := [],
    nextRunAt := 500, intervalMs := some 0, status := TaskStatus.running,
    createdAt := 100, updatedAt := 400 }

/-! ## HTN planning strategy (v1/planning/strategies/htn.ts)

Operator and Method carry first-class precondition and effect functions
(v1/planning/types.ts); they are embedded as Lean functions, which are pure by
construction — the purity contract the source states for them.  The PlanMemory
collaborator is embedded by its two faces visible to the planner: the
getFailureRate read (a function from method id to a rational rate) and the
recordFailure write, whose invocations are made an explicit output of
decomposeTask and planHTN so that theorems can speak about them. -/

/-- WorldState (v1/planning/types.ts lines 14-17): a set of facts plus a
variables record; the field is named vars here because variables is a Lean
keyword, and the record is modelled as a string association list. -/
structure WorldState where
  facts : List String
  vars : List (String × String)
deriving DecidableEq, Repr

/-- Operator (v1/planning/types.ts lines 5-11).  The execute field performs the
operator outside the planner and is never consulted by planHTN; it is omitted
from the embedding. -/
structure Operator where
  id : String
  name : String
  preconditions : WorldState → Bool
  effects : WorldState → WorldState

/-- Method (v1/planning/types.ts lines 20-27). -/
structure Method where
  id : String
  name : String
  task : String
  preconditions : WorldState → Bool
  subtasks : List String
  ordering : Option (List (String × String))

/-- The HTNPlanningStrategy state (htn.ts lines 17-19): the operator and method
registries (Maps keyed by task id, embedded as association lists looked up with
List.lookup) and the PlanMemory collaborator's failure-rate statistic. -/
structure HTNPlanningStrategy where
  operators : List (String × Operator)
  methods : List (String × Method)
  getFailureRate : String → ℚ

/-- HTNPlanningStrategy.decomposeTask (htn.ts lines 69-79).  The second
component lists the recordFailure observations made: the source records
(taskId, state) exactly when the method exists and its precondition fails,
returning the empty subtask list in that case. -/
def decomposeTask (S : HTNPlanningStrategy) (taskId : String) (state : WorldState) :
    List String × List (String × WorldState) :=
  match List.lookup taskId S.methods with
  | none => ([], [])
  | some method =>
      if method.preconditions state then (method.subtasks, [])
      else ([], [(taskId, state)])

/-- HTNPlanningStrategy.planHTN (htn.ts lines 104-142).  First component: the
plan (none is the "no plan" null result).  Second component: the recordFailure
observations made through decomposeTask during the call.  The source compares
the failure rate with the literal 0.8, modelled as the rational 4/5.  The
recursion is total because every recursive call increases depth and the guard
returns once depth exceeds 100. -/
def planHTN (S : HTNPlanningStrategy) (tasks : List String) (state : WorldState)
    (depth : Nat) : Option (List String) × List (String × WorldState) :=
  match tasks with
  | [] => (some [], [])
  | task :: remainingTasks =>
      if _h : 100 < depth then (none, [])
      else
        match List.lookup task S.operators with
        | some operator =>
            if operator.preconditions state then
              let newState := operator.effects state
              let rec1 := planHTN S remainingTasks newState (depth + 1)
              match rec1.1 with
              | none => (none, rec1.2)
              | some subPlan => (some (task :: subPlan), rec1.2)
            else (none, [])
        | none =>
            match List.lookup task S.methods with
            | none => (none, [])
            | some method =>
                if S.getFailureRate task > 4 / 5 then (none, [])
                else if method.preconditions state then
                  let dec := decomposeTask S task state
                  let rec2 := planHTN S (dec.1 ++ remainingTasks) state (depth + 1)
                  (rec2.1, dec.2 ++ rec2.2)
                else (none, [])
termination_by 101 - depth
decreasing_by all_goals omega

/-- HTNPlanningStrategy.validatePlan (htn.ts lines 90-102): replay the plan
from a copy of the state, failing on a missing operator or failed
precondition. -/
def validatePlan (S : HTNPlanningStrategy) (plan : List String) (state : WorldState) :
    Bool :=
  match plan with
  | [] => true
  | opId :: rest =>
      match List.lookup opId S.operators with
      | none => false
      | some operator =>
          if operator.preconditions state then
            validatePlan S rest (operator.effects state)
          else false

/-! ## Goal manager (BasePlanningSystem) -/

/-- GoalStatus (v1/planning/types.ts lines 47-53). -/
inductive GoalStatus where
  | pending
  | inProgress
  | completed
  | failed
  | blocked
deriving DecidableEq, Repr

/-- The Partial WorldState used for Goal.targetState: each WorldState field may
be absent. -/
structure WorldStatePatch where
  facts : Option (List String)
  vars : Option (List (String × String))
deriving DecidableEq, Repr

/-- Goal (v1/planning/types.ts lines 30-45).  data is Record<string, any>,
modelled as a string association list. -/
structure Goal where
  id : String
  parentId : Option String
  type : String
  status : GoalStatus
  priority : Int
  data : List (String × String)
  subgoals : List Goal
  createdAt : Int
  updatedAt : Int
  initialState : WorldState
  targetState : Option WorldStatePatch
  taskNetwork : List String
  plan : Option (List String)

/-- JavaScript Map.set on a goal map keyed by goal id: replace the entry in
place when the key exists, else append. -/
def goalMapSet (m : List (String × Goal)) (k : String) (v : Goal) :
    List (String × Goal) :=
  if m.any (fun p => p.fst == k) then
    m.map (fun p => if p.fst == k then (k, v) else p)
  else m ++ [(k, v)]

/-- JavaScript Map.get on the goal map. -/
def goalMapGet (m : List (String × Goal)) (k : String) : Option Goal :=
  (m.find? (fun p => p.fst == k)).map (fun p => p.snd)

/-- The BasePlanningSystem state: the authoritative in-memory goal map plus the
MemoryStore collaborator (key to stored goal list) and the context's
conversation id used as the persistence key. -/
structure PlanningSystemState where
  goals : List (String × Goal)
  memory : List (String × List Goal)
  conversationId : String

/-- BasePlanningSystem.saveGoals: persist the full goal list to the memory
store under the conversation key. -/
def saveGoals (st : PlanningSystemState) : PlanningSystemState :=
  { st with memory :=
      (st.conversationId ++ ":goals", st.goals.map (fun p => p.snd)) ::
        (st.memory.filter (fun e => e.fst != st.conversationId ++ ":goals")) }

/-- BasePlanningSystem.addGoals: Map.set each goal under its id, then
saveGoals.  No field of the stored goals is touched. -/
def addGoals (st : PlanningSystemState) (goals : List Goal) : PlanningSystemState :=
  saveGoals
    { st with goals := goals.foldl (fun m g => goalMapSet m g.id g) st.goals }

/-- BasePlanningSystem.getGoal: Map.get by id (|| null in the source becomes
Option). -/
def getGoal (st : PlanningSystemState) (id : String) : Option Goal :=
  goalMapGet st.goals id

/-! ## Orchestrator (orchestrator.ts)

The data flowing through handlers is `unknown` in the source; it is embedded
as a small JavaScript value universe with the truthiness and Array.isArray
tests the orchestrator performs.  Handler execute calls can throw, embedded as
Except with a String message.  Every function that dispatches handlers also
returns the list of execute invocations it performed (name and argument), so
that call-count properties are statable. -/

/-- A JavaScript value as routed through the orchestrator queue. -/
inductive Data where
  | null
  | undef
  | bool (b : Bool)
  | num (n : Int)
  | str (s : String)
  | arr (items : List Data)

/-- JavaScript truthiness of a Data value. -/
def truthy : Data → Bool
  | Data.null => false
  | Data.undef => false
  | Data.bool b => b
  | Data.num n => n != 0
  | Data.str s => s != ""
  | Data.arr _ => true

/-- HandlerRole (INPUT, OUTPUT, ACTION); modelled from the spec section 3, the
types module not being among the provided sources. -/
inductive HandlerRole where
  | input
  | output
  | action
deriving DecidableEq, Repr

/-- IOHandler; modelled from the spec section 3 (name, role, execute), the
types module not being among the provided sources.  execute may throw, hence
Except.  The subscribe capability is not consulted by the dispatch functions
embedded here. -/
structure IOHandler where
  name : String
  role : HandlerRole
  execute : Data → Except String Data

/-- Look up a handler by name in the registry (this.ioHandlers.get(name)); the
registry Map is embedded as a list with unique names. -/
def lookupHandler (handlers : List IOHandler) (name : String) : Option IOHandler :=
  handlers.find? (fun h => h.name == name)

/-- One suggested output of a ProcessedResult: a handler name and data. -/
structure Suggestion where
  name : String
  data : Data

/-- ProcessedResult as consumed by runAutonomousFlow; modelled from the spec
section 6 and the field accesses in orchestrator.ts: alreadyProcessed (absent
reads falsy) and suggestedOutputs (?? [] when absent). -/
structure FlowProcessedResult where
  alreadyProcessed : Bool
  suggestedOutputs : Option (List Suggestion)

/-- An entry of the runAutonomousFlow work queue. -/
structure QueueEntry where
  data : Data
  source : String

/-- An execute invocation record: handler name and the argument passed. -/
def HandlerCall : Type := String × Data

/-- Seed the queue from initialData (orchestrator.ts lines 282-291): one entry
per element when the data is an array, else a single entry. -/
def seedQueue (initialData : Data) (sourceName : String) : List QueueEntry :=
  match initialData with
  | Data.arr items => items.map (fun item => ⟨item, sourceName⟩)
  | d => [⟨d, sourceName⟩]

/-- Flatten a truthy action result into queue entries with source = the action
name (orchestrator.ts lines 360-374): arrays element-wise, else one entry. -/
def actionResultEntries (actionResult : Data) (actionName : String) :
    List QueueEntry :=
  match actionResult with
  | Data.arr items => items.map (fun item => ⟨item, actionName⟩)
  | d => [⟨d, actionName⟩]

/-- The body of the suggestion loop of runAutonomousFlow (orchestrator.ts lines
319-381) for one suggestion: resolve the handler (missing: warn and continue);
OUTPUT role: record the (name, data) pair and dispatch once (an execute error
propagates, as dispatchToOutput rethrows); ACTION role: dispatch once and, when
the result is truthy, produce the re-enqueued entries; any other role: warn and
continue.  Returns (on success) the queue entries to append and the outputs
recorded, plus the execute invocations made. -/
def dispatchSuggestion (handlers : List IOHandler) (sugg : Suggestion) :
    Except String (List QueueEntry × List (String × Data)) × List HandlerCall :=
  match lookupHandler handlers sugg.name with
  | none => (Except.ok ([], []), [])
  | some handler =>
      match handler.role with
      | HandlerRole.output =>
          match handler.execute sugg.data with
          | Except.error e => (Except.error e, [(sugg.name, sugg.data)])
          | Except.ok _ =>
              (Except.ok ([], [(sugg.name, sugg.data)]), [(sugg.name, sugg.data)])
      | HandlerRole.action =>
          match handler.execute sugg.data with
          | Except.error e => (Except.error e, [(sugg.name, sugg.data)])
          | Except.ok actionResult =>
              (Except.ok
                (if truthy actionResult then
                    actionResultEntries actionResult sugg.name
                  else [], []),
               [(sugg.name, sugg.data)])
      | HandlerRole.input => (Except.ok ([], []), [])

/-- Run dispatchSuggestion over a suggestion list in order, stopping at the
first thrown error (which aborts the whole flow call in the source). -/
def dispatchSuggestions (handlers : List IOHandler) :
    List Suggestion →
    Except String (List QueueEntry × List (String × Data)) × List HandlerCall
  | [] => (Except.ok ([], []), [])
  | sugg :: rest =>
      match dispatchSuggestion handlers sugg with
      | (Except.error e, calls) => (Except.error e, calls)
      | (Except.ok (q1, o1), calls) =>
          match dispatchSuggestions handlers rest with
          | (Except.error e, calls2) => (Except.error e, calls ++ calls2)
          | (Except.ok (q2, o2), calls2) =>
              (Except.ok (q1 ++ q2, o1 ++ o2), calls ++ calls2)

/-- The suggestions examined for one queue entry: each ProcessedResult not
flagged alreadyProcessed contributes its suggestedOutputs ?? []
(orchestrator.ts lines 312-319). -/
def collectSuggestions (results : List FlowProcessedResult) : List Suggestion :=
  (results.filter (fun r => !r.alreadyProcessed)).flatMap
    (fun r => r.suggestedOutputs.getD [])

/-- The queue loop of runAutonomousFlow (orchestrator.ts lines 297-383),
parameterised over processContent (data, source to ProcessedResult list) and a
fuel bound standing for the number of loop iterations the run is observed for:
none means the loop was still running after fuel iterations (the source loop
has no built-in bound and an action chain can extend the queue forever).  On
termination, Except.error is a handler error propagating out of the call and
Except.ok the accumulated outputs; the invocation trace is returned in either
case. -/
def runFlowQueue (handlers : List IOHandler)
    (processContent : Data → String → List FlowProcessedResult) :
    Nat → List QueueEntry → List (String × Data) → List HandlerCall →
    Option (Except String (List (String × Data)) × List HandlerCall)
  | _, [], outputs, calls => some (Except.ok outputs, calls)
  | 0, _ :: _, _, _ => none
  | fuel + 1, entry :: rest, outputs, calls =>
      let results := processContent entry.data entry.source
      match dispatchSuggestions handlers (collectSuggestions results) with
      | (Except.error e, newCalls) => some (Except.error e, calls ++ newCalls)
      | (Except.ok (adds, newOutputs), newCalls) =>
          runFlowQueue handlers processContent fuel (rest ++ adds)
            (outputs ++ newOutputs) (calls ++ newCalls)

/-- Orchestrator.runAutonomousFlow (orchestrator.ts lines 277-387): seed the
queue from initialData and drain it. -/
def runAutonomousFlow (handlers : List IOHandler)
    (processContent : Data → String → List FlowProcessedResult) (fuel : Nat)
    (initialData : Data) (sourceName : String) :
    Option (Except String (List (String × Data)) × List HandlerCall) :=
  runFlowQueue handlers processContent fuel (seedQueue initialData sourceName) [] []

/-- The value Orchestrator.dispatchToInput resolves to: a thrown error (missing
handler or role mismatch, raised before the try block), undefined (the catch
path logs the error and falls off the function without a return), or a
returned array. -/
inductive InputDispatchResult where
  | thrown (msg : String)
  | undef
  | value (outputs : List (String × Data))

/-- Orchestrator.dispatchToInput (orchestrator.ts lines 421-452): resolve the
handler (throw on missing or non-INPUT role), execute it inside try; a falsy
result returns []; a truthy result is fed to runAutonomousFlow and its outputs
returned; any error thrown by the handler or by the flow is caught, logged and
swallowed, the function ending without a return value, i.e. undefined.  The
outer Option is the fuel bound of the inner flow. -/
def dispatchToInput (handlers : List IOHandler)
    (processContent : Data → String → List FlowProcessedResult) (fuel : Nat)
    (name : String) (data : Data) :
    Option (InputDispatchResult × List HandlerCall) :=
  match lookupHandler handlers name with
  | none => some (InputDispatchResult.thrown
      ("No IOHandler registered with name: " ++ name), [])
  | some handler =>
      if handler.role ≠ HandlerRole.input then
        some (InputDispatchResult.thrown
          ("Handler \"" ++ name ++ "\" is not an input handler"), [])
      else
        match handler.execute data with
        | Except.error _ => some (InputDispatchResult.undef, [(name, data)])
        | Except.ok result =>
            if truthy result then
              match runAutonomousFlow handlers processContent fuel result
                  handler.name with
              | none => none
              | some (Except.error _, calls) =>
                  some (InputDispatchResult.undef, (name, data) :: calls)
              | some (Except.ok outputs, calls) =>
                  some (InputDispatchResult.value outputs, (name, data) :: calls)
            else some (InputDispatchResult.value [], [(name, data)])

/-! ## Content processing (Orchestrator.processContentItem) -/

/-- The fields of an incoming content item read by processContentItem: the
optional room and the content id, plus the payload handed to the processor. -/
structure Content where
  room : Option String
  contentId : String
  payload : Data

/-- The full ProcessedResult returned by a processor; modelled from the spec
section 6 (content, metadata?, enrichedContext?, suggestedOutputs?,
alreadyProcessed?), the types module not being among the provided sources. -/
structure ContentProcessedResult where
  content : Data
  metadata : List (String × String)
  enrichedContext : List (String × String)
  suggestedOutputs : Option (List Suggestion)
  alreadyProcessed : Bool

/-- BaseProcessor as consulted by processContentItem: a name, the canHandle
predicate, and process taking the content, the serialized memory snapshot and
the available OUTPUT and ACTION handlers. -/
structure BaseProcessor where
  name : String
  canHandle : Content → Bool
  process : Content → String → List IOHandler → List IOHandler →
    ContentProcessedResult

/-- A RoomManager invocation, recording which collaborator method
processContentItem called and with what arguments (addMemory abbreviated to
room id and serialized payload). -/
inductive RoomCall where
  | hasProcessedContentInRoom (contentId roomId : String)
  | ensureRoom (roomId source : String)
  | getMemoriesFromRoom (roomId : String)
  | addMemory (roomId payload : String)
  | markContentAsProcessed (contentId roomId : String)
deriving DecidableEq, Repr

/-- The RoomManager collaborator (not among the provided sources), embedded
abstractly as state transformers over an arbitrary state type: every theorem
about processContentItem below holds for every implementation of this
interface. -/
structure RoomManager (σ : Type) where
  hasProcessedContentInRoom : String → String → σ → Bool × σ
  ensureRoom : String → String → σ → String × σ
  getMemoriesFromRoom : String → σ → List String × σ
  addMemory : String → String → σ → σ
  markContentAsProcessed : String → String → σ → σ

/-- JSON.stringify on the memory snapshot (a list of serialized memories). -/
def serializeMemories (memories : List String) : String :=
  "[" ++ String.intercalate "," memories ++ "]"

/-- JSON.stringify on a Data value (the processor result content saved to room
memory). -/
def serializeData : Data → String
  | Data.null => "null"
  | Data.undef => "undefined"
  | Data.bool b => if b then "true" else "false"
  | Data.num n => toString n
  | Data.str s => "\"" ++ s ++ "\""
  | Data.arr items =>
      "[" ++ String.intercalate "," (items.attach.map
        (fun item => serializeData item.val)) ++ "]"
termination_by d => sizeOf d
decreasing_by
  simp_wf
  have h := List.sizeOf_lt_of_mem item.property
  omega

/-- Orchestrator.processContentItem (orchestrator.ts lines 480-572).  With a
room: consult the de-duplication guard (returning null when already
processed), ensure the room and load its memories; then (room or not) select
the first registered processor whose canHandle matches (returning null when
none); run it on the content, the serialized memories (the empty snapshot when
roomless) and the available OUTPUT and ACTION handlers; then, only with a
room, save the result to room memory and mark the content processed.  Returns
the result, the final RoomManager state and the trace of RoomManager calls. -/
def processContentItem {σ : Type} (rm : RoomManager σ)
    (processors : List BaseProcessor) (handlers : List IOHandler)
    (content : Content) (source : String) (st : σ) :
    Option ContentProcessedResult × σ × List RoomCall :=
  let availableOutputs := handlers.filter (fun h => h.role == HandlerRole.output)
  let availableActions := handlers.filter (fun h => h.role == HandlerRole.action)
  match content.room with
  | some roomId =>
      let checked := rm.hasProcessedContentInRoom content.contentId roomId st
      let calls0 := [RoomCall.hasProcessedContentInRoom content.contentId roomId]
      if checked.1 then (none, checked.2, calls0)
      else
        let ensured := rm.ensureRoom roomId source checked.2
        let loaded := rm.getMemoriesFromRoom ensured.1 ensured.2
        let calls1 := calls0 ++
          [RoomCall.ensureRoom roomId source, RoomCall.getMemoriesFromRoom ensured.1]
        match processors.find? (fun p => p.canHandle content) with
        | none => (none, loaded.2, calls1)
        | some processor =>
            let result := processor.process content (serializeMemories loaded.1)
              availableOutputs availableActions
            let payload := serializeData result.content
            let st4 := rm.addMemory roomId payload loaded.2
            let st5 := rm.markContentAsProcessed content.contentId roomId st4
            (some result, st5, calls1 ++
              [RoomCall.addMemory roomId payload,
               RoomCall.markContentAsProcessed content.contentId roomId])
  | none =>
      match processors.find? (fun p => p.canHandle content) with
      | none => (none, st, [])
      | some processor =>
          (some (processor.process content (serializeMemories [])
            availableOutputs availableActions), st, [])

/-! ## Concrete instances used by witnesses and counterexamples -/

/-- A concrete recurring task with a one-minute interval. -/
def taskRec : ScheduledTask :=
  { taskId := "t2", userId := "u1", handlerName := "h", taskData := [],
    nextRunAt := 4000, intervalMs := some 60000, status := TaskStatus.running,
    createdAt := 100, updatedAt := 4500 }

/-- The empty world state. -/
def sW : WorldState := ⟨[], []⟩

/-- A primitive operator whose precondition always holds and whose effect adds
a fact. -/
def opA : Operator :=
  ⟨"a", "opA", fun _ => true, fun s => ⟨"fa" :: s.facts, s.vars⟩⟩

/-- A primitive operator whose precondition always fails. -/
def opB : Operator := ⟨"b", "opB", fun _ => false, fun s => s⟩

/-- A strategy with the two operators above and no methods. -/
def SOp : HTNPlanningStrategy :=
  ⟨[("a", opA), ("b", opB)], [], fun _ => 0⟩

/-- A method that decomposes the compound task cycle back into itself. -/
def mCyc : Method := ⟨"cycle", "mCyc", "cycle", fun _ => true, ["cycle"], none⟩

/-- A strategy holding only the cyclic method. -/
def SCyc : HTNPlanningStrategy := ⟨[], [("cycle", mCyc)], fun _ => 0⟩

/-- A method whose precondition holds but whose recorded failure rate is
9/10. -/
def mBad : Method := ⟨"bad", "mBad", "bad", fun _ => true, ["a"], none⟩

/-- A strategy where method bad has failure rate 9/10 (above the 0.8
threshold). -/
def SBad : HTNPlanningStrategy :=
  ⟨[("a", opA)], [("bad", mBad)], fun t => if t = "bad" then 9 / 10 else 0⟩

/-- A method whose precondition fails on every state (so decomposeTask records
a failure when called directly on it). -/
def mFail : Method := ⟨"failing", "mFail", "failing", fun _ => false, [], none⟩

/-- A strategy holding only the failing method. -/
def SFail : HTNPlanningStrategy := ⟨[], [("failing", mFail)], fun _ => 0⟩

/-- The echo OUTPUT handler of the spec scenario: returns its input. -/
def echoHandler : IOHandler := ⟨"echo", HandlerRole.output, fun d => Except.ok d⟩

/-- An INPUT handler that turns any payload into the raw content "raw". -/
def readerHandler : IOHandler :=
  ⟨"reader", HandlerRole.input, fun _ => Except.ok (Data.str "raw")⟩

/-- The processor of the spec scenario: content "raw" from source reader
suggests the single output echo with data "hi". -/
def processEcho : Data → String → List FlowProcessedResult :=
  fun d src =>
    match d, src with
    | Data.str "raw", "reader" => [⟨false, some [⟨"echo", Data.str "hi"⟩]⟩]
    | _, _ => []

/-- An ACTION handler returning the empty string: a non-null but falsy
result. -/
def emptyStringAction : IOHandler :=
  ⟨"act", HandlerRole.action, fun _ => Except.ok (Data.str "")⟩

/-- A marker OUTPUT handler used to observe whether the action result above
gets re-enqueued. -/
def markerOutput : IOHandler := ⟨"out2", HandlerRole.output, fun d => Except.ok d⟩

/-- Handlers for the empty-string-action run. -/
def handlersH6 : List IOHandler := [emptyStringAction, markerOutput]

/-- Processor map for the empty-string-action run: the seed content suggests
the action; any content arriving from source act would suggest the marker
output, making a re-enqueue observable in the returned outputs. -/
def processP6 : Data → String → List FlowProcessedResult :=
  fun d src =>
    match d, src with
    | Data.num 1, _ => [⟨false, some [⟨"act", Data.num 2⟩]⟩]
    | _, "act" => [⟨false, some [⟨"out2", Data.str "marker"⟩]⟩]
    | _, _ => []

/-- An ACTION handler returning an array of two results (truthy). -/
def fetchAction : IOHandler :=
  ⟨"fetch", HandlerRole.action,
   fun _ => Except.ok (Data.arr [Data.str "r1", Data.str "r2"])⟩

/-- An INPUT handler whose execute always throws. -/
def throwingInput : IOHandler :=
  ⟨"in1", HandlerRole.input, fun _ => Except.error "boom"⟩

/-- An INPUT handler succeeding with content "go". -/
def okInput : IOHandler :=
  ⟨"in2", HandlerRole.input, fun _ => Except.ok (Data.str "go")⟩

/-- An OUTPUT handler whose execute always throws. -/
def throwingOutput : IOHandler :=
  ⟨"bout", HandlerRole.output, fun _ => Except.error "ouch"⟩

/-- Processor map sending content "go" from source in2 to the throwing
output. -/
def processP7 : Data → String → List FlowProcessedResult :=
  fun d src =>
    match d, src with
    | Data.str "go", "in2" => [⟨false, some [⟨"bout", Data.str "x"⟩]⟩]
    | _, _ => []

/-- A RoomManager over Nat state in which every method bumps the state, so
that any invocation is visible. -/
def rmCounting : RoomManager Nat :=
  ⟨fun _ _ n => (true, n + 1), fun _ _ n => ("room", n + 1),
   fun _ n => ([], n + 1), fun _ _ n => n + 1, fun _ _ n => n + 1⟩

/-- A processor accepting every content item. -/
def acceptAllProcessor : BaseProcessor :=
  ⟨"p", fun _ => true, fun _ _ _ _ => ⟨Data.str "r", [], [], none, false⟩⟩

/-- A roomless content item. -/
def roomlessContent : Content := ⟨none, "c1", Data.str "x"⟩

/-! ## Theorems -/

/-- findDueTasks unfolded at a nonzero limit: the truthy guard applies the
cap. -/
theorem findDueTasks_eq_take {limit : Nat} (hl : limit ≠ 0)
    (store : List ScheduledTask) (now : Int) :
    MongoDb.findDueTasks store now limit =
      ((store.filter (dueFilter now)).mergeSort
        (fun a b => decide (a.nextRunAt ≤ b.nextRunAt))).take limit := by
  cases limit with
  | zero => exact absurd rfl hl
  | succ l => rfl

/-- findDueTasks unfolded at the falsy limit 0: find.limit is never called, so
no cap is applied and all due tasks are returned. -/
theorem findDueTasks_zero (store : List ScheduledTask) (now : Int) :
    MongoDb.findDueTasks store now 0 =
      (store.filter (dueFilter now)).mergeSort
        (fun a b => decide (a.nextRunAt ≤ b.nextRunAt)) := rfl

/-- Every task returned by the persistent-backend findDueTasks comes from the
store and satisfies the due filter (status pending and nextRunAt <= now). -/
theorem mem_findDueTasks {store : List ScheduledTask} {now : Int} {limit : Nat}
    {t : ScheduledTask} (h : t ∈ MongoDb.findDueTasks store now limit) :
    t ∈ store ∧ dueFilter now t = true := by
  have h1 : t ∈ (store.filter (dueFilter now)).mergeSort
      (fun a b => decide (a.nextRunAt ≤ b.nextRunAt)) := by
    cases limit with
    | zero => rw [findDueTasks_zero] at h; exact h
    | succ l =>
        rw [findDueTasks_eq_take (Nat.succ_ne_zero l)] at h
        exact List.mem_of_mem_take h
  have h2 := (List.mergeSort_perm (store.filter (dueFilter now))
      (fun a b => decide (a.nextRunAt ≤ b.nextRunAt))).mem_iff.mp h1
  exact ⟨(List.mem_filter.mp h2).1, (List.mem_filter.mp h2).2⟩

/-- The persistent-backend findDueTasks result is ordered non-decreasing by
nextRunAt. -/
theorem findDueTasks_sorted (store : List ScheduledTask) (now : Int) (limit : Nat) :
    List.Pairwise (fun a b : ScheduledTask => a.nextRunAt ≤ b.nextRunAt)
      (MongoDb.findDueTasks store now limit) := by
  have hs := @List.sorted_mergeSort ScheduledTask
    (fun a b => decide (a.nextRunAt ≤ b.nextRunAt))
    (by intro a b c hab hbc; simp at hab hbc ⊢; omega)
    (by intro a b; simp; omega)
    (store.filter (dueFilter now))
  cases limit with
  | zero =>
      rw [findDueTasks_zero]
      exact hs.imp (by intro a b hh; simpa using hh)
  | succ l =>
      rw [findDueTasks_eq_take (Nat.succ_ne_zero l)]
      have hsub := List.Pairwise.sublist (List.take_sublist (l + 1) _) hs
      exact hsub.imp (by intro a b hh; simpa using hh)

/-- The persistent-backend findDueTasks returns at most limit tasks — for a
nonzero limit; the falsy guard applies no cap at limit 0 (see
findDueTasks_limit_zero_no_cap). -/
theorem findDueTasks_length_le (store : List ScheduledTask) (now : Int)
    {limit : Nat} (hl : limit ≠ 0) :
    (MongoDb.findDueTasks store now limit).length ≤ limit := by
  rw [findDueTasks_eq_take hl]
  exact List.length_take_le _ _

/-- When the due tasks fit within the limit, every due pending task of the
store is returned by the persistent-backend findDueTasks. -/
theorem findDueTasks_complete {store : List ScheduledTask} {now : Int} {limit : Nat}
    (hlen : (store.filter (dueFilter now)).length ≤ limit)
    {t : ScheduledTask} (ht : t ∈ store) (hdue : dueFilter now t = true) :
    t ∈ MongoDb.findDueTasks store now limit := by
  have hmem : t ∈ (store.filter (dueFilter now)).mergeSort
      (fun a b => decide (a.nextRunAt ≤ b.nextRunAt)) :=
    (List.mergeSort_perm _ _).mem_iff.mpr (List.mem_filter.mpr ⟨ht, hdue⟩)
  cases limit with
  | zero => rw [findDueTasks_zero]; exact hmem
  | succ l =>
      rw [findDueTasks_eq_take (Nat.succ_ne_zero l),
        List.take_of_length_le (by rw [List.length_mergeSort]; exact hlen)]
      exact hmem

/-- At limit = 0, the falsy `if (limits.limit)` guard of mongo-repository.ts
never calls find.limit, so the persistent backend returns every due task: one
task comes back where the claimed at-most-limit cap demands zero — a second
divergence of the source from the claim, besides the in-memory backend bug. -/
theorem findDueTasks_limit_zero_no_cap :
    MongoDb.findDueTasks [task0] 2000 0 = [task0] := by
  rw [findDueTasks_zero]
  have hf : List.filter (dueFilter 2000) [task0] = [task0] := by decide
  rw [hf, List.mergeSort_singleton]

/-- Claim C1 (status code_bug), evaluation at the failing input: a store
holding the single pending task due at time 1000, queried at now = 2000 with
limit 50.  The in-memory backend returns the empty list — the query's operator
object is never strictly equal to the stored Date, and the limit window with
undefined skip is slice(0, undefined + 50 = NaN) = [] — while the task is due
under the claimed filter and the persistent model returns exactly it. -/
theorem findDueTasks_memory_backend_drops_due_task :
    memoryFindDueTasks [memTaskDoc0] 100 101 2000 50 = [] ∧
    dueFilter 2000 task0 = true ∧
    MongoDb.findDueTasks [task0] 2000 50 = [task0] := by
  refine ⟨?_, by decide, ?_⟩
  · simp [memoryFindDueTasks, MemoryRepository.find, memMatches, dueQuery,
      memTaskDoc0, jsStrictEq, List.lookup, memApplyLimits]
  · have hf : List.filter (dueFilter 2000) [task0] = [task0] := by decide
    rw [findDueTasks_eq_take (by decide), hf, List.mergeSort_singleton]
    rfl

/-- Claim C2 (amended): rescheduleIfRecurring marks the task completed when
intervalMs is undefined or 0 (the JavaScript falsy guard), and for a nonzero
intervalMs i resets it to pending with nextRunAt = now + i, after which the
task is absent from the persistent-model findDueTasks at any query time
earlier than now + i. -/
theorem rescheduleIfRecurring_spec (now : Int) (t : ScheduledTask) :
    ((t.intervalMs = none ∨ t.intervalMs = some 0) →
      (MongoDb.rescheduleIfRecurring now t).status = TaskStatus.completed) ∧
    (∀ i : Int, t.intervalMs = some i → i ≠ 0 →
      (MongoDb.rescheduleIfRecurring now t).status = TaskStatus.pending ∧
      (MongoDb.rescheduleIfRecurring now t).nextRunAt = now + i ∧
      ∀ (store : List ScheduledTask) (q : Int) (limit : Nat), q < now + i →
        MongoDb.rescheduleIfRecurring now t ∉ MongoDb.findDueTasks store q limit) := by
  constructor
  · rintro (h | h) <;>
      simp [MongoDb.rescheduleIfRecurring, MongoDb.markCompleted, h]
  · intro i hi hne
    have hresc : MongoDb.rescheduleIfRecurring now t =
        MongoDb.updateNextRun now (now + i) t := by
      simp [MongoDb.rescheduleIfRecurring, hi, hne]
    refine ⟨by simp [hresc, MongoDb.updateNextRun],
      by simp [hresc, MongoDb.updateNextRun], ?_⟩
    intro store q limit hq hmem
    have hdue := (mem_findDueTasks hmem).2
    rw [hresc] at hdue
    simp [dueFilter, MongoDb.updateNextRun] at hdue
    omega

/-- Claim C2 counterexample: a task whose intervalMs is defined but equal to 0
is marked completed, not reset to pending as the claim states for every
defined intervalMs. -/
theorem rescheduleIfRecurring_interval0_counterexample :
    taskInterval0.intervalMs = some 0 ∧
    (MongoDb.rescheduleIfRecurring 1000 taskInterval0).status = TaskStatus.completed ∧
    (MongoDb.rescheduleIfRecurring 1000 taskInterval0).status ≠ TaskStatus.pending := by
  exact ⟨rfl, by decide, by decide⟩

/-- Witness for the amended Claim C2 at a concrete recurring task with
intervalMs = 60000, completed at time 5000 and queried at time 6000. -/
theorem rescheduleIfRecurring_spec_witness :
    (MongoDb.rescheduleIfRecurring 5000 taskRec).status = TaskStatus.pending ∧
    (MongoDb.rescheduleIfRecurring 5000 taskRec).nextRunAt = 5000 + 60000 ∧
    MongoDb.rescheduleIfRecurring 5000 taskRec ∉
      MongoDb.findDueTasks [MongoDb.rescheduleIfRecurring 5000 taskRec] 6000 50 := by
  have h := (rescheduleIfRecurring_spec 5000 taskRec).2 60000 rfl (by decide)
  exact ⟨h.1, h.2.1, h.2.2 _ 6000 50 (by decide)⟩

end Daydreams

namespace Daydreams

/-- One unfolding of planHTN on a compound task whose method is registered,
not pruned by failure rate, and whose precondition holds: the call equals the
recursive call on the spliced subtasks at depth + 1 (the decomposition records
no failure, so the traces also agree). -/
theorem planHTN_method_step (S : HTNPlanningStrategy) (task : String)
    (ts : List String) (state : WorldState) (depth : Nat) (m : Method)
    (h : depth ≤ 100)
    (hop : List.lookup task S.operators = none)
    (hm : List.lookup task S.methods = some m)
    (hrate : ¬(S.getFailureRate task > 4 / 5))
    (hpre : m.preconditions state = true) :
    planHTN S (task :: ts) state depth =
      planHTN S (m.subtasks ++ ts) state (depth + 1) := by
  rw [planHTN]
  simp [Nat.not_lt.mpr h, hop, hm, hrate, hpre, decomposeTask]

theorem planHTN_cyclic_aux :
    ∀ (k depth : Nat) (state : WorldState), 101 - depth ≤ k →
      (planHTN SCyc ["cycle"] state depth).1 = none := by
  intro k
  induction k with
  | zero =>
      intro depth state h
      rw [planHTN]
      have hd : 100 < depth := by omega
      simp [hd]
  | succ k ih =>
      intro depth state h
      by_cases hd : 100 < depth
      · rw [planHTN]; simp [hd]
      · rw [planHTN_method_step SCyc "cycle" [] state depth mCyc (by omega)
          rfl rfl (by norm_num [SCyc]) rfl]
        simpa [mCyc] using ih (depth + 1) state (by omega)

/-- Claim C9: the planning path records no failure observation — for every
strategy, task list, state and depth the recordFailure trace of planHTN is
empty.  planHTN checks each method's precondition itself (returning no-plan
before calling decomposeTask when it fails), and decomposeTask records a
failure only when that same check fails; preconditions are pure Lean functions
here, matching the purity contract the source states for them, so the check
cannot disagree between the two call sites. -/
theorem planHTN_records_no_failure :
    ∀ (S : HTNPlanningStrategy) (tasks : List String) (state : WorldState)
      (depth : Nat), (planHTN S tasks state depth).2 = [] := by
  intro S tasks state depth
  induction tasks, state, depth using planHTN.induct S with
  | case1 state depth => simp [planHTN]
  | case2 state depth task rem h => rw [planHTN]; simp [h]
  | case3 state depth task rem h op hop hpre nS rec1 hrec ih =>
      rw [planHTN]
      simp only [h, hop, hpre, if_true]
      cases hx : (planHTN S rem (op.effects state) (depth + 1)).1 <;>
        simp [hx] <;> exact ih
  | case4 state depth task rem h op hop hpre nS rec1 sp hsp ih =>
      rw [planHTN]
      simp only [h, hop, hpre, if_true]
      cases hx : (planHTN S rem (op.effects state) (depth + 1)).1 <;>
        simp [hx] <;> exact ih
  | case5 state depth task rem h op hop hpre =>
      rw [planHTN]
      simp [h, hop, hpre]
  | case6 state depth task rem h hop hm =>
      rw [planHTN]
      simp [h, hop, hm]
  | case7 state depth task rem h hop m hm hrate =>
      rw [planHTN]
      simp [h, hop, hm, hrate]
  | case8 state depth task rem h hop m hm hrate hpre dec ih =>
      have hdec1 : (decomposeTask S task state).1 = m.subtasks := by
        simp [decomposeTask, hm, hpre]
      rw [planHTN_method_step S task rem state depth m (by omega) hop hm hrate hpre]
      rw [hdec1] at ih
      exact ih
  | case9 state depth task rem h hop m hm hrate hpre =>
      rw [planHTN]
      simp [h, hop, hm, hrate, hpre]

end Daydreams

namespace Daydreams

/-- Claim C3: planHTN follows the specified recursion — empty task list gives
the empty plan; a head task that is a registered operator with failing
precondition kills the branch with no-plan (and records nothing); a registered
operator with passing precondition prepends its id to the plan of the
remaining tasks under the effected state; a head task that is neither a
registered operator nor a registered method gives no-plan. -/
theorem planHTN_structure :
    (∀ (S : HTNPlanningStrategy) (state : WorldState) (depth : Nat),
      planHTN S [] state depth = (some [], [])) ∧
    (∀ (S : HTNPlanningStrategy) (task : String) (ts : List String)
      (state : WorldState) (depth : Nat) (op : Operator), depth ≤ 100 →
      List.lookup task S.operators = some op →
      op.preconditions state = false →
      planHTN S (task :: ts) state depth = (none, [])) ∧
    (∀ (S : HTNPlanningStrategy) (task : String) (ts : List String)
      (state : WorldState) (depth : Nat) (op : Operator), depth ≤ 100 →
      List.lookup task S.operators = some op →
      op.preconditions state = true →
      (planHTN S (task :: ts) state depth).1 =
        Option.map (fun p => task :: p)
          (planHTN S ts (op.effects state) (depth + 1)).1) ∧
    (∀ (S : HTNPlanningStrategy) (task : String) (ts : List String)
      (state : WorldState) (depth : Nat), depth ≤ 100 →
      List.lookup task S.operators = none →
      List.lookup task S.methods = none →
      planHTN S (task :: ts) state depth = (none, [])) := by
  refine ⟨?_, ?_, ?_, ?_⟩
  · intro S state depth
    simp [planHTN]
  · intro S task ts state depth op h hop hpre
    rw [planHTN]
    simp [Nat.not_lt.mpr h, hop, hpre]
  · intro S task ts state depth op h hop hpre
    rw [planHTN]
    simp only [Nat.not_lt.mpr h, hop, hpre, if_true]
    cases hrec : (planHTN S ts (op.effects state) (depth + 1)).1 <;>
      simp [Nat.not_lt.mpr h, hrec]
  · intro S task ts state depth h hop hm
    rw [planHTN]
    simp [Nat.not_lt.mpr h, hop, hm]

/-- Witness for Claim C3 on the concrete strategy SOp (operators a and b, no
methods): all four cases at depth 0. -/
theorem planHTN_structure_witness :
    planHTN SOp [] sW 0 = (some [], []) ∧
    planHTN SOp ["b"] sW 0 = (none, []) ∧
    (planHTN SOp ["a"] sW 0).1 =
      Option.map (fun p => "a" :: p) (planHTN SOp [] (opA.effects sW) 1).1 ∧
    planHTN SOp ["zzz"] sW 0 = (none, []) :=
  ⟨planHTN_structure.1 SOp sW 0,
   planHTN_structure.2.1 SOp "b" [] sW 0 opB (by decide) rfl rfl,
   planHTN_structure.2.2.1 SOp "a" [] sW 0 opA (by decide) rfl rfl,
   planHTN_structure.2.2.2 SOp "zzz" [] sW 0 (by decide) rfl rfl⟩

/-- Claim C4: past the depth guard every nonempty task list aborts immediately
with the no-plan result (so the call chain of a cyclic decomposition started
at depth 0 is cut when it reaches depth 101), and on the concrete self-cyclic
method the planner returns no-plan at every starting depth instead of
recursing unboundedly; planHTN is total by construction in this embedding. -/
theorem planHTN_depth_guard :
    (∀ (S : HTNPlanningStrategy) (task : String) (ts : List String)
      (state : WorldState) (depth : Nat), 100 < depth →
      planHTN S (task :: ts) state depth = (none, [])) ∧
    (∀ (state : WorldState) (depth : Nat),
      (planHTN SCyc ["cycle"] state depth).1 = none) := by
  constructor
  · intro S task ts state depth h
    rw [planHTN]
    simp [h]
  · intro state depth
    exact planHTN_cyclic_aux (101 - depth) depth state (by omega)

/-- Witness for Claim C4: the guard fires at depth 101 on a nonempty task
list, and the concrete cyclic decomposition yields no-plan from depth 0. -/
theorem planHTN_depth_guard_witness :
    planHTN SOp ["a"] sW 101 = (none, []) ∧
    (planHTN SCyc ["cycle"] sW 0).1 = none :=
  ⟨planHTN_depth_guard.1 SOp "a" [] sW 101 (by decide),
   planHTN_depth_guard.2 sW 0⟩

/-- Claim C5: a compound task whose method has recorded failure rate above 0.8
is pruned — no-plan, no decomposition attempted, no failure recorded — even
when the method's precondition holds on the current state. -/
theorem planHTN_failure_rate_pruning
    (S : HTNPlanningStrategy) (task : String) (ts : List String)
    (state : WorldState) (depth : Nat) (m : Method) (h : depth ≤ 100)
    (hop : List.lookup task S.operators = none)
    (hm : List.lookup task S.methods = some m)
    (hrate : S.getFailureRate task > 4 / 5)
    (hpre : m.preconditions state = true) :
    planHTN S (task :: ts) state depth = (none, []) := by
  rw [planHTN]
  simp [Nat.not_lt.mpr h, hop, hm, hrate]

/-- Witness for Claim C5 on the concrete strategy SBad, whose method bad has
failure rate 9/10 and an always-true precondition. -/
theorem planHTN_failure_rate_pruning_witness :
    planHTN SBad ["bad"] sW 0 = (none, []) :=
  planHTN_failure_rate_pruning SBad "bad" [] sW 0 mBad (by decide) rfl rfl
    (by norm_num [SBad]) rfl

end Daydreams

namespace Daydreams

theorem goalMapGet_goalMapSet : ∀ (m : List (String × Goal)) (k : String) (v : Goal),
    goalMapGet (goalMapSet m k v) k = some v := by
  intro m k v
  induction m with
  | nil => simp [goalMapSet, goalMapGet]
  | cons p rest ih =>
      by_cases hp : p.fst == k
      · have hany : ((p :: rest).any (fun q => q.fst == k)) = true := by
          simp [List.any_cons, hp]
        rw [goalMapSet, if_pos hany, List.map_cons, if_pos hp]
        simp [goalMapGet, List.find?_cons]
      · simp only [goalMapSet, List.any_cons, hp, Bool.false_or]
        by_cases hr : rest.any (fun q => q.fst == k)
        · simp only [hr, if_true, List.map_cons, hp, if_false]
          have ih2 := ih
          simp only [goalMapSet, hr, if_true] at ih2
          simpa [goalMapGet, List.find?_cons, hp] using ih2
        · simp only [hr, if_false]
          have ih2 := ih
          simp only [goalMapSet, hr, if_false] at ih2
          simpa [goalMapGet, List.find?_cons, hp] using ih2

/-- Claim C8: a goal inserted through addGoals and retrieved through getGoal by
its id comes back equal on every field — addGoals stores the goal object
unchanged (timestamps included), which is field equality up to (vacuously)
server-assigned timestamps. -/
theorem addGoals_getGoal_roundtrip (st : PlanningSystemState) (g : Goal) :
    getGoal (addGoals st [g]) g.id = some g := by
  simpa [addGoals, saveGoals, getGoal] using goalMapGet_goalMapSet st.goals g.id g

/-- Claim C10: for a content item without a room field, processContentItem
performs no de-duplication and leaves room-memory state unchanged — the
RoomManager is never invoked (empty call trace, state returned as given, for
every RoomManager implementation) — and the result is the first matching
processor run on the content with the empty serialized memory snapshot,
independent of any previous processing, so identical roomless content is
re-processed on every arrival. -/
theorem processContentItem_roomless {σ : Type} (rm : RoomManager σ)
    (processors : List BaseProcessor) (handlers : List IOHandler)
    (content : Content) (source : String) (st : σ)
    (hroom : content.room = none) :
    processContentItem rm processors handlers content source st =
      ((processors.find? (fun p => p.canHandle content)).map
        (fun p => p.process content (serializeMemories [])
          (handlers.filter (fun h => h.role == HandlerRole.output))
          (handlers.filter (fun h => h.role == HandlerRole.action))),
       st, []) := by
  unfold processContentItem
  rw [hroom]
  cases hf : processors.find? (fun p => p.canHandle content) <;> simp [hf]

/-- Witness for Claim C10 at a state-bumping RoomManager over Nat, a single
accept-all processor, and a concrete roomless content item. -/
theorem processContentItem_roomless_witness :
    processContentItem rmCounting [acceptAllProcessor] [] roomlessContent "src" 0 =
      ((([acceptAllProcessor].find? (fun p => p.canHandle roomlessContent)).map
        (fun p => p.process roomlessContent (serializeMemories [])
          (List.filter (fun h => h.role == HandlerRole.output) [])
          (List.filter (fun h => h.role == HandlerRole.action) []))),
       0, []) :=
  processContentItem_roomless rmCounting [acceptAllProcessor] [] roomlessContent
    "src" 0 rfl

/-- Claim C6 (amended): in the suggestion loop of runAutonomousFlow, a
suggestion naming a registered OUTPUT handler is dispatched exactly once, its
(name, data) pair recorded in the outputs and nothing re-enqueued; a
suggestion naming an ACTION handler is dispatched once and its truthy result
(re-enqueue is guarded by JavaScript truthiness, not by a null check) is
re-enqueued with source = the action name, arrays flattened element-wise; and
the end-to-end echo scenario: one OUTPUT handler echo returning its input, a
processor suggesting (echo, "hi") — dispatchToInput returns the single output
(echo, "hi") with echo executed exactly once, on "hi". -/
theorem runAutonomousFlow_suggestion_dispatch :
    (∀ (handlers : List IOHandler) (sugg : Suggestion) (h : IOHandler) (r : Data),
      lookupHandler handlers sugg.name = some h → h.role = HandlerRole.output →
      h.execute sugg.data = Except.ok r →
      dispatchSuggestion handlers sugg =
        (Except.ok ([], [(sugg.name, sugg.data)]), [(sugg.name, sugg.data)])) ∧
    (∀ (handlers : List IOHandler) (sugg : Suggestion) (h : IOHandler) (r : Data),
      lookupHandler handlers sugg.name = some h → h.role = HandlerRole.action →
      h.execute sugg.data = Except.ok r → truthy r = true →
      dispatchSuggestion handlers sugg =
        (Except.ok (actionResultEntries r sugg.name, []),
         [(sugg.name, sugg.data)])) ∧
    (dispatchToInput [readerHandler, echoHandler] processEcho 5 "reader"
        (Data.num 7) =
      some (InputDispatchResult.value [("echo", Data.str "hi")],
            [("reader", Data.num 7), ("echo", Data.str "hi")])) := by
  refine ⟨?_, ?_, rfl⟩
  · intro handlers sugg h r hlook hrole hexec
    simp [dispatchSuggestion, hlook, hrole, hexec]
  · intro handlers sugg h r hlook hrole hexec htruthy
    simp [dispatchSuggestion, hlook, hrole, hexec, htruthy]

/-- Witness for the amended Claim C6: the OUTPUT case on the concrete echo
handler, the ACTION case on a concrete fetch action returning a (truthy) array
of two results, and the scenario conjunct. -/
theorem runAutonomousFlow_suggestion_dispatch_witness :
    dispatchSuggestion [echoHandler] ⟨"echo", Data.str "hi"⟩ =
      (Except.ok ([], [("echo", Data.str "hi")]), [("echo", Data.str "hi")]) ∧
    dispatchSuggestion [fetchAction] ⟨"fetch", Data.num 0⟩ =
      (Except.ok (actionResultEntries (Data.arr [Data.str "r1", Data.str "r2"])
        "fetch", []), [("fetch", Data.num 0)]) ∧
    dispatchToInput [readerHandler, echoHandler] processEcho 5 "reader"
        (Data.num 7) =
      some (InputDispatchResult.value [("echo", Data.str "hi")],
            [("reader", Data.num 7), ("echo", Data.str "hi")]) :=
  ⟨runAutonomousFlow_suggestion_dispatch.1 [echoHandler] ⟨"echo", Data.str "hi"⟩
      echoHandler (Data.str "hi") rfl rfl rfl,
   runAutonomousFlow_suggestion_dispatch.2.1 [fetchAction] ⟨"fetch", Data.num 0⟩
      fetchAction (Data.arr [Data.str "r1", Data.str "r2"]) rfl rfl rfl rfl,
   runAutonomousFlow_suggestion_dispatch.2.2⟩

/-- Claim C6 counterexample: an ACTION handler returning the empty string — a
non-null, non-undefined value — is dispatched but its result is NOT
re-enqueued (the source guard is truthiness): the flow ends with no further
processing and no outputs, where the claim predicts the result re-enqueued
with source act and the marker output then dispatched. -/
theorem actionFalsyResultNotReenqueued :
    emptyStringAction.execute (Data.num 2) = Except.ok (Data.str "") ∧
    Data.str "" ≠ Data.null ∧ Data.str "" ≠ Data.undef ∧
    runAutonomousFlow handlersH6 processP6 10 (Data.num 1) "src" =
      some (Except.ok [], [("act", Data.num 2)]) := by
  refine ⟨rfl, by simp, by simp, rfl⟩

/-- Claim C7 (amended): when a registered INPUT handler's execute throws, or
the downstream autonomous flow throws, dispatchToInput logs and swallows the
error and resolves to undefined (the catch block has no return statement), not
to an empty list and not by propagating the error. -/
theorem dispatchToInput_swallows :
    (∀ (handlers : List IOHandler)
      (pc : Data → String → List FlowProcessedResult)
      (fuel : Nat) (name : String) (data : Data) (h : IOHandler) (msg : String),
      lookupHandler handlers name = some h → h.role = HandlerRole.input →
      h.execute data = Except.error msg →
      dispatchToInput handlers pc fuel name data =
        some (InputDispatchResult.undef, [(name, data)])) ∧
    (∀ (handlers : List IOHandler)
      (pc : Data → String → List FlowProcessedResult)
      (fuel : Nat) (name : String) (data : Data) (h : IOHandler) (r : Data)
      (msg : String) (calls : List HandlerCall),
      lookupHandler handlers name = some h → h.role = HandlerRole.input →
      h.execute data = Except.ok r → truthy r = true →
      runAutonomousFlow handlers pc fuel r h.name =
        some (Except.error msg, calls) →
      dispatchToInput handlers pc fuel name data =
        some (InputDispatchResult.undef, (name, data) :: calls)) := by
  constructor
  · intro handlers pc fuel name data h msg hlook hrole hexec
    simp [dispatchToInput, hlook, hrole, hexec]
  · intro handlers pc fuel name data h r msg calls hlook hrole hexec htruthy hflow
    simp [dispatchToInput, hlook, hrole, hexec, htruthy, hflow]

end Daydreams

namespace Daydreams

/-- Claim C7 counterexample: with a registered INPUT handler whose execute
throws, dispatchToInput resolves to undefined (the catch block returns
nothing), which is not the empty list the claim states it yields. -/
theorem dispatchToInput_error_yields_undefined :
    dispatchToInput [throwingInput] (fun _ _ => []) 3 "in1" (Data.num 5) =
      some (InputDispatchResult.undef, [("in1", Data.num 5)]) ∧
    InputDispatchResult.undef ≠ InputDispatchResult.value [] :=
  ⟨rfl, by simp⟩

/-- Witness for the amended Claim C7: the handler-throws case on the concrete
throwing INPUT handler, and the downstream-flow-throws case on an INPUT
handler feeding a throwing OUTPUT handler. -/
theorem dispatchToInput_swallows_witness :
    dispatchToInput [throwingInput] processP7 4 "in1" (Data.num 5) =
      some (InputDispatchResult.undef, [("in1", Data.num 5)]) ∧
    dispatchToInput [okInput, throwingOutput] processP7 4 "in2" (Data.num 9) =
      some (InputDispatchResult.undef,
            [("in2", Data.num 9), ("bout", Data.str "x")]) :=
  ⟨dispatchToInput_swallows.1 [throwingInput] processP7 4 "in1" (Data.num 5)
      throwingInput "boom" rfl rfl rfl,
   dispatchToInput_swallows.2 [okInput, throwingOutput] processP7 4 "in2"
      (Data.num 9) okInput (Data.str "go") "ouch" [("bout", Data.str "x")]
      rfl rfl rfl rfl rfl⟩

end Daydreams
